import Mathlib

/-!
Verification of the text-transformation core of `streamlit_app.py`
(Writing_Tools).

The embedding models:
* `_call_groq_api` (lines 47-92): the provider call, its error classification,
  and the `st.cache_data` memoization (keyed on the argument tuple
  `(prompt, model, n, temperature)`; the decorator stores whatever value the
  function returns, whether it encodes a success or a failure, and on a key
  hit returns the stored value without running the body).
* `rephrase` (lines 94-130) and `generate_response` (lines 133-155).
* the chat-mode turn of the UI (lines 255-289).

The remote provider is modelled as a function `Net` from the index of the
network call (how many calls were issued before) to its behaviour: either a
well-formed response carrying a list of choice contents, or one of the
exception kinds the `except` clauses distinguish.  The Python body catches
every exception (`except Exception` is a catch-all), so the embedding is a
total function returning the pair `(responses, error)`.
-/

namespace WritingTools

/-- One role/content message pair sent to the provider
(`{"role": ..., "content": ...}`). -/
structure Message where
  role : String
  content : String
deriving DecidableEq

/-- The request shape of one network call issued by
`client.chat.completions.create(model=..., messages=..., n=..., temperature=...)`.
Temperature is kept as an exact rational (0.7 and 0.5 in the source); only its
identity matters (cache keying), never arithmetic on it. -/
structure ApiRequest where
  model : String
  messages : List Message
  n : Nat
  temperature : ℚ
deriving DecidableEq

/-- Behaviour of the provider on one network call: a well-formed response with
a (possibly empty) list of choice contents, or one of the exceptions the
source distinguishes.  `otherError` covers the catch-all `except Exception`. -/
inductive ApiBehavior where
  | response (choices : List String)
  | connectionError (cause : String)
  | rateLimitError
  | statusError (code : Nat) (msg : String)
  | otherError (msg : String)
deriving DecidableEq

/-- The provider as seen over time: the behaviour of the k-th network call. -/
def Net : Type := Nat → ApiBehavior

/-- Return type of `_call_groq_api`:
`Tuple[Optional[List[str]], Optional[str]]`. -/
abbrev GroqResult := Option (List String) × Option String

-- NUM_REPHRASES = 3 (line 19)
def NUM_REPHRASES : Nat := 3

/-- The message list `_call_groq_api` sends:
`messages=[{"role": "user", "content": prompt}]` (line 67). -/
def groqMessages (prompt : String) : List Message :=
  [⟨"user", prompt⟩]

/-- Body of `_call_groq_api` (lines 63-92) for one network call behaviour:
a nonempty `completion.choices` yields the contents in order; an empty
choices list and every caught exception yield `(None, message)`. -/
def callGroqApiRaw : ApiBehavior → GroqResult
  | .response choices =>
      if choices.isEmpty then
        (none, some "API returned no choices.")
      else
        (some choices, none)
  | .connectionError cause =>
      (none, some ("Groq API Connection Error: " ++ cause))
  | .rateLimitError =>
      (none, some "Groq Rate Limit Exceeded. Please wait and try again.")
  | .statusError code msg =>
      (none, some ("Groq API Error (Status " ++ toString code ++ "): " ++ msg))
  | .otherError msg =>
      (none, some ("An unexpected error occurred: " ++ msg))

/-- Cache key of `st.cache_data` on `_call_groq_api`: the argument tuple
`(prompt, model, n, temperature)`, compared structurally. -/
structure CacheKey where
  prompt : String
  model : String
  n : Nat
  temperature : ℚ
deriving DecidableEq

/-- Process-lifetime client state: the `st.cache_data` store for
`_call_groq_api`, and the chronological log of network requests actually
issued (its length is the number of network calls made). -/
structure ClientState where
  cache : List (CacheKey × GroqResult)
  sentRequests : List ApiRequest

def initialState : ClientState := ⟨[], []⟩

/-- First stored result for a key, if any. -/
def cacheLookup : List (CacheKey × GroqResult) → CacheKey → Option GroqResult
  | [], _ => none
  | (k, v) :: rest, key => if key = k then some v else cacheLookup rest key

/-- The network request a cache miss on `key` issues. -/
def sentRequest (key : CacheKey) : ApiRequest :=
  ⟨key.model, groqMessages key.prompt, key.n, key.temperature⟩

/-- The function `_call_groq_api` as cached by `st.cache_data`: on a key hit the stored
value is returned and no network call is made; on a miss the body runs once
(the behaviour of the next network call) and its return value — success or
failure alike, since the body returns rather than raises — is stored. -/
def callGroqApi (net : Net) (key : CacheKey) (s : ClientState) :
    GroqResult × ClientState :=
  match cacheLookup s.cache key with
  | some r => (r, s)
  | none =>
      let r := callGroqApiRaw (net s.sentRequests.length)
      (r, ⟨(key, r) :: s.cache, s.sentRequests ++ [sentRequest key]⟩)

/-! ### Python string cleaning (`r.strip().strip('"')`, lines 126 and 152) -/

/-- The whitespace set of Python `str.strip()` (ASCII part). -/
def isPySpace (c : Char) : Bool :=
  c = ' ' || c = '\t' || c = '\n' || c = '\r' || c = '\x0b' || c = '\x0c'

/-- The character set of Python `str.strip('"')`. -/
def isQuote (c : Char) : Bool := c = '"'

/-- Python `str.strip(chars)`: remove every leading and every trailing
character satisfying `p` (all of them, not one layer). -/
def stripList (p : Char → Bool) (l : List Char) : List Char :=
  List.rdropWhile p (l.dropWhile p)

/-- Python `s.strip()`. -/
def pyStrip (s : String) : String := ⟨stripList isPySpace s.data⟩

/-- Python `s.strip('"')`. -/
def pyStripQuote (s : String) : String := ⟨stripList isQuote s.data⟩

/-- The per-choice cleaning of `rephrase` (line 126): `r.strip().strip('"')`. -/
def clean (r : String) : String := pyStripQuote (pyStrip r)

/-! ### `rephrase` (lines 94-130) -/

/-- The `prompt_for_n` f-string (lines 113-117). -/
def rephrasePrompt (instruction user_message : String) : String :=
  "Instruction: " ++ instruction ++
    "\n\nRewrite the following text according to the instruction:\n\"" ++
    user_message ++ "\"\n"

/-- Cache key of the `_call_groq_api(prompt_for_n, model, n=NUM_REPHRASES,
temperature=0.7)` call (line 119). -/
def rephraseKey (instruction user_message model : String) : CacheKey :=
  ⟨rephrasePrompt instruction user_message, model, NUM_REPHRASES, mkRat 7 10⟩

/-- The function `rephrase(instruction, user_message, model)` (lines 94-130), returning the
result list together with the updated client state. -/
def rephrase (net : Net) (instruction user_message model : String)
    (s : ClientState) : List String × ClientState :=
  if user_message = "" then ([], s)
  else
    let c := callGroqApi net (rephraseKey instruction user_message model) s
    if c.1.2.isSome then ([], c.2)
    else
      match c.1.1 with
      | some rs => if rs.isEmpty then ([], c.2) else (rs.map clean, c.2)
      | none => ([], c.2)

/-! ### `generate_response` (lines 133-155) and the chat turn (lines 255-289) -/

/-- The chat prompt f-string (line 143). -/
def chatPrompt (instruction user_message : String) : String :=
  instruction ++ "\n\n\"" ++ user_message ++ "\""

/-- Cache key of the `_call_groq_api(prompt, model, n=1, temperature=0.5)`
call (line 146). -/
def chatKey (instruction user_message model : String) : CacheKey :=
  ⟨chatPrompt instruction user_message, model, 1, mkRat 5 10⟩

/-- The function `generate_response(instruction, user_message, model)` (lines 133-155). -/
def generate_response (net : Net) (instruction user_message model : String)
    (s : ClientState) : String × ClientState :=
  if user_message = "" then ("", s)
  else if instruction = "" then ("", s)
  else
    let c := callGroqApi net (chatKey instruction user_message model) s
    if c.1.2.isSome then ("", c.2)
    else
      match c.1.1 with
      | some rs => if rs.isEmpty then ("", c.2) else (pyStrip (rs.headD ""), c.2)
      | none => ("", c.2)

/-- The generic chat instruction (line 275). -/
def chat_instruction : String := "Respond helpfully to the following user request:"

/-- One chat-mode turn (lines 255-289): the user message is appended to the
session history, `generate_response` runs on the new prompt alone, and the
assistant reply (or the failure placeholder) is appended. -/
def chatTurn (net : Net) (model prompt : String) (history : List Message)
    (s : ClientState) : List Message × ClientState :=
  let history1 := history ++ [⟨"user", prompt⟩]
  let g := generate_response net chat_instruction prompt model s
  if g.1 = "" then
    (history1 ++ [⟨"assistant", "*Assistant failed to respond*"⟩], g.2)
  else
    (history1 ++ [⟨"assistant", g.1⟩], g.2)

/-! ### The reasoning-markup sanitizer (modelled from the spec)

The repository corpus also contains variants whose response cleaning strips
provider reasoning markup; that code is not part of `streamlit_app.py`, so
the sanitizer below is modelled from the specification text: it removes
every span delimited by a reasoning-markup open/close pair — two tag names
functioning as synonyms — including its contents, matching across line
boundaries and case-insensitively, then trims surrounding whitespace;
unmatched tags are left verbatim. -/

def openThink : List Char := ['<', 't', 'h', 'i', 'n', 'k', '>']

def openThinking : List Char :=
  ['<', 't', 'h', 'i', 'n', 'k', 'i', 'n', 'g', '>']

def closeThink : List Char := ['<', '/', 't', 'h', 'i', 'n', 'k', '>']

def closeThinking : List Char :=
  ['<', '/', 't', 'h', 'i', 'n', 'k', 'i', 'n', 'g', '>']

/-- The accepted opening tags, longest first (so that a `<thinking>`
occurrence is not cut short by the `<think>` synonym). -/
def openTags : List (List Char) := [openThinking, openThink]

/-- The accepted closing tags, longest first. -/
def closeTags : List (List Char) := [closeThinking, closeThink]

/-- Does one of `tags` occur, case-insensitively, at the very start of `l`?
Returns the length of the first (longest) tag that matches. -/
def matchTagAt (tags : List (List Char)) (l : List Char) : Option Nat :=
  match tags with
  | [] => none
  | t :: ts =>
      if (l.take t.length).map Char.toLower = t then some t.length
      else matchTagAt ts l

/-- Scan for the first closing tag; return the remainder after it.  (All
closing tags are nonempty, so on a match at `c :: rest` the remainder
`rest.drop (k - 1)` equals dropping the whole `k`-character tag.) -/
def findClose : List Char → Option (List Char)
  | [] => none
  | c :: rest =>
      match matchTagAt closeTags (c :: rest) with
      | some k => some (rest.drop (k - 1))
      | none => findClose rest

/-- Modelled from the spec: remove every span delimited by a matched
reasoning-markup open/close tag pair, contents included, scanning left to
right; an open tag with no subsequent close tag is left verbatim. -/
def removeThink : List Char → List Char
  | [] => []
  | c :: rest =>
      match matchTagAt openTags (c :: rest) with
      | some k =>
          match hf : findClose ((c :: rest).drop k) with
          | some after => removeThink after
          | none => c :: removeThink rest
      | none => c :: removeThink rest
termination_by l => l.length
decreasing_by
  · have key : ∀ (l m : List Char), findClose l = some m →
        m.length < l.length := by
      intro l
      induction l with
      | nil => intro m h; simp [findClose] at h
      | cons a t ih =>
          intro m h
          rw [findClose] at h
          cases hmt : matchTagAt closeTags (a :: t) with
          | some j =>
              rw [hmt] at h
              injection h with h2
              rw [← h2, List.length_cons, List.length_drop]
              omega
          | none =>
              rw [hmt] at h
              have := ih m h
              rw [List.length_cons]
              omega
    have h1 := key _ _ hf
    have h2 : ((c :: rest).drop k).length ≤ (c :: rest).length := by
      rw [List.length_drop]
      omega
    omega
  all_goals rw [List.length_cons]; omega

/-- Modelled from the spec: the ResponseSanitizer — reasoning-markup spans
removed, then surrounding whitespace trimmed (Python `.strip()`). -/
def sanitize (s : String) : String := pyStrip ⟨removeThink s.data⟩

/-! ### Claim theorems -/

/-- A `GroqResult` is exclusively a success or a failure. -/
def exclusiveOutcome (r : GroqResult) : Prop :=
  (∃ cs, r = (some cs, none)) ∨ (∃ msg, r = (none, some msg))

/-- Every cached value is an exclusive outcome. -/
def StateExclusive (s : ClientState) : Prop :=
  ∀ kv ∈ s.cache, exclusiveOutcome kv.2

/-- A successful lookup returns a value stored in the cache. -/
theorem cacheLookup_mem (cache : List (CacheKey × GroqResult)) (key : CacheKey)
    (r : GroqResult) (h : cacheLookup cache key = some r) :
    ∃ kv ∈ cache, kv.2 = r := by
  induction cache with
  | nil => simp [cacheLookup] at h
  | cons hd tl ih =>
      by_cases hk : key = hd.1
      · exact ⟨hd, List.mem_cons_self hd tl, by simpa [cacheLookup, hk] using h⟩
      · obtain ⟨kv, hmem, hval⟩ := ih (by simpa [cacheLookup, hk] using h)
        exact ⟨kv, List.mem_cons_of_mem _ hmem, hval⟩

theorem callGroqApiRaw_exclusive (beh : ApiBehavior) :
    exclusiveOutcome (callGroqApiRaw beh) := by
  cases beh with
  | response choices =>
      by_cases h : choices.isEmpty <;>
        simp [callGroqApiRaw, h, exclusiveOutcome]
  | connectionError cause => simp [callGroqApiRaw, exclusiveOutcome]
  | rateLimitError => simp [callGroqApiRaw, exclusiveOutcome]
  | statusError code msg => simp [callGroqApiRaw, exclusiveOutcome]
  | otherError msg => simp [callGroqApiRaw, exclusiveOutcome]

/-- C7: `_call_groq_api` always returns exactly one of a choice list (with no
error message) or an error message (with no choice list) — on a cache hit as
well as on a fresh call — and, being a total function that converts every
provider exception into such a pair, lets no exception propagate to callers;
the updated cache again stores only such exclusive outcomes. -/
theorem callGroqApi_success_xor_failure (net : Net) (key : CacheKey)
    (s : ClientState) (hs : StateExclusive s) :
    exclusiveOutcome (callGroqApi net key s).1 ∧
      StateExclusive (callGroqApi net key s).2 := by
  unfold callGroqApi
  cases hkv : cacheLookup s.cache key with
  | some r =>
      refine ⟨?_, hs⟩
      obtain ⟨kv, hmem, hval⟩ := cacheLookup_mem s.cache key r hkv
      simpa [hval] using hs kv hmem
  | none =>
      refine ⟨callGroqApiRaw_exclusive _, ?_⟩
      intro kv hkv2
      rcases List.mem_cons.mp hkv2 with h | h
      · subst h; exact callGroqApiRaw_exclusive _
      · exact hs kv h

/-- Witness for C7 at a concrete failing call from the initial state. -/
theorem callGroqApi_success_xor_failure_witness :
    exclusiveOutcome
        (callGroqApi (fun _ => ApiBehavior.rateLimitError)
          (rephraseKey "i" "t" "m") initialState).1 ∧
      StateExclusive
        (callGroqApi (fun _ => ApiBehavior.rateLimitError)
          (rephraseKey "i" "t" "m") initialState).2 :=
  callGroqApi_success_xor_failure (fun _ => ApiBehavior.rateLimitError)
    (rephraseKey "i" "t" "m") initialState (by simp [StateExclusive, initialState])

/-- C8: with empty source text, `rephrase` returns the empty list — not an
error value — and leaves the client state (cache and issued-request log)
untouched: no completion call is made. -/
theorem rephrase_empty_text (net : Net) (instruction model : String)
    (s : ClientState) :
    rephrase net instruction "" model s = ([], s) := by
  simp [rephrase]

/-- C1 counterexample: after a rate-limited (failed) `rephrase` call from the
initial state, the failure IS stored in the cache (the lookup is not `none`)
and an immediately repeated structurally identical call does NOT issue a new
network call (the issued-request count stays 1, not 2): `st.cache_data`
memoizes the returned `(None, error)` pair like any other return value. -/
theorem rephrase_failure_not_cached_counterexample :
    ¬ (cacheLookup
          ((rephrase (fun _ => ApiBehavior.rateLimitError) "i" "t" "m"
              initialState).2).cache
          (rephraseKey "i" "t" "m") = none
        ∨ ((rephrase (fun _ => ApiBehavior.rateLimitError) "i" "t" "m"
              ((rephrase (fun _ => ApiBehavior.rateLimitError) "i" "t" "m"
                  initialState).2)).2).sentRequests.length = 2) := by
  decide

/-- C1 (amended): on a cache miss, the outcome of the call — failure and
success alike — is stored in the cache under the full request key, and an
immediately repeated structurally identical request is answered from the
cache, with the identical outcome and no new network call. -/
theorem callGroqApi_memoizes_all_outcomes (net : Net) (key : CacheKey)
    (s : ClientState) (hmiss : cacheLookup s.cache key = none) :
    cacheLookup ((callGroqApi net key s).2).cache key
        = some (callGroqApi net key s).1
    ∧ callGroqApi net key ((callGroqApi net key s).2)
        = ((callGroqApi net key s).1, (callGroqApi net key s).2) := by
  simp [callGroqApi, hmiss, cacheLookup]

/-- Witness for the amended C1 at a concrete failing call. -/
theorem callGroqApi_memoizes_all_outcomes_witness :
    cacheLookup
        ((callGroqApi (fun _ => ApiBehavior.rateLimitError)
            (rephraseKey "i" "t" "m") initialState).2).cache
        (rephraseKey "i" "t" "m")
      = some (callGroqApi (fun _ => ApiBehavior.rateLimitError)
          (rephraseKey "i" "t" "m") initialState).1
    ∧ callGroqApi (fun _ => ApiBehavior.rateLimitError) (rephraseKey "i" "t" "m")
        ((callGroqApi (fun _ => ApiBehavior.rateLimitError)
            (rephraseKey "i" "t" "m") initialState).2)
      = ((callGroqApi (fun _ => ApiBehavior.rateLimitError)
            (rephraseKey "i" "t" "m") initialState).1,
         (callGroqApi (fun _ => ApiBehavior.rateLimitError)
            (rephraseKey "i" "t" "m") initialState).2) :=
  callGroqApi_memoizes_all_outcomes (fun _ => ApiBehavior.rateLimitError)
    (rephraseKey "i" "t" "m") initialState rfl

/-- C5: when the provider answers a fresh request with exactly
`NUM_REPHRASES` choices, `rephrase` returns those choices, each cleaned, in
provider order with no reordering or deduplication, and the result length is
exactly the requested variant count. -/
theorem rephrase_variant_count (net : Net)
    (instruction user_message model : String) (s : ClientState)
    (cs : List String)
    (hmsg : user_message ≠ "")
    (hmiss : cacheLookup s.cache (rephraseKey instruction user_message model)
        = none)
    (hnet : net s.sentRequests.length = ApiBehavior.response cs)
    (hlen : cs.length = NUM_REPHRASES) :
    (rephrase net instruction user_message model s).1 = cs.map clean
    ∧ (rephrase net instruction user_message model s).1.length
        = NUM_REPHRASES := by
  have hne : cs.isEmpty = false := by
    cases cs with
    | nil => simp [NUM_REPHRASES] at hlen
    | cons a l => rfl
  constructor <;>
    simp [rephrase, hmsg, callGroqApi, hmiss, hnet, callGroqApiRaw, hne, hlen]

/-- Witness for C5: variant count 3, provider choices `["a", "b", "c"]`, in
order. -/
theorem rephrase_variant_count_witness :
    (rephrase (fun _ => ApiBehavior.response ["a", "b", "c"]) "i" "t" "m"
        initialState).1 = ["a", "b", "c"]
    ∧ (rephrase (fun _ => ApiBehavior.response ["a", "b", "c"]) "i" "t" "m"
        initialState).1.length = NUM_REPHRASES :=
  ⟨(rephrase_variant_count (fun _ => ApiBehavior.response ["a", "b", "c"])
      "i" "t" "m" initialState ["a", "b", "c"] (by decide) rfl rfl
      (by decide)).1.trans (by decide),
   (rephrase_variant_count (fun _ => ApiBehavior.response ["a", "b", "c"])
      "i" "t" "m" initialState ["a", "b", "c"] (by decide) rfl rfl
      (by decide)).2⟩

/-- C6: a well-formed provider response with zero choices is classified as
the no-choices failure (`"API returned no choices."` with no choice list),
and `rephrase` returns the empty list rather than raising a fault. -/
theorem rephrase_no_choices (net : Net)
    (instruction user_message model : String) (s : ClientState)
    (hmiss : cacheLookup s.cache (rephraseKey instruction user_message model)
        = none)
    (hnet : net s.sentRequests.length = ApiBehavior.response []) :
    callGroqApiRaw (ApiBehavior.response [])
        = (none, some "API returned no choices.")
    ∧ (rephrase net instruction user_message model s).1 = [] := by
  refine ⟨rfl, ?_⟩
  by_cases hmsg : user_message = ""
  · simp [rephrase, hmsg]
  · simp [rephrase, hmsg, callGroqApi, hmiss, hnet, callGroqApiRaw]

/-- Witness for C6 at a concrete zero-choice response. -/
theorem rephrase_no_choices_witness :
    callGroqApiRaw (ApiBehavior.response [])
        = (none, some "API returned no choices.")
    ∧ (rephrase (fun _ => ApiBehavior.response []) "i" "t" "m"
        initialState).1 = [] :=
  rephrase_no_choices (fun _ => ApiBehavior.response []) "i" "t" "m"
    initialState rfl rfl

/-- C10: `rephrase` returns the same value — the empty list — both when the
completion call fails and when the source text is empty, so the return value
alone cannot distinguish a failed call from the empty-input no-op. -/
theorem rephrase_failure_empty_indistinguishable (net : Net)
    (instruction user_message model : String) (s : ClientState)
    (hmiss : cacheLookup s.cache (rephraseKey instruction user_message model)
        = none)
    (hfail : (callGroqApiRaw (net s.sentRequests.length)).2.isSome = true) :
    (rephrase net instruction user_message model s).1 = []
    ∧ (rephrase net instruction "" model s).1 = [] := by
  refine ⟨?_, by simp [rephrase]⟩
  by_cases hmsg : user_message = ""
  · simp [rephrase, hmsg]
  · simp [rephrase, hmsg, callGroqApi, hmiss, hfail]

/-- Witness for C10 at a concrete failing call. -/
theorem rephrase_failure_empty_indistinguishable_witness :
    (rephrase (fun _ => ApiBehavior.rateLimitError) "i" "t" "m"
        initialState).1 = []
    ∧ (rephrase (fun _ => ApiBehavior.rateLimitError) "i" "" "m"
        initialState).1 = [] :=
  rephrase_failure_empty_indistinguishable
    (fun _ => ApiBehavior.rateLimitError) "i" "t" "m" initialState rfl rfl

/-- The function `generate_response` always hands back the client state produced by the
(cached) API call, whatever the outcome branch. -/
theorem generate_response_state (net : Net)
    (instruction user_message model : String) (s : ClientState)
    (hm : user_message ≠ "") (hi : instruction ≠ "") :
    (generate_response net instruction user_message model s).2
      = (callGroqApi net (chatKey instruction user_message model) s).2 := by
  unfold generate_response
  simp only [hm, hi, if_false, ite_false]
  split
  · rfl
  · split
    · split <;> rfl
    · rfl

/-- C4 counterexample: with session history "hello"/"hi" and the new chat
turn "what did I say?", the provider call carries a single-message list that
does not contain the prior user turn (so it cannot carry the whole history
followed by the new message). -/
theorem chat_history_counterexample :
    (((chatTurn (fun _ => ApiBehavior.response ["you said hello"]) "m"
          "what did I say?" [⟨"user", "hello"⟩, ⟨"assistant", "hi"⟩]
          initialState).2).sentRequests.headD ⟨"", [], 0, 0⟩).messages.length
        = 1
    ∧ ¬ ((Message.mk "user" "hello") ∈
        (((chatTurn (fun _ => ApiBehavior.response ["you said hello"]) "m"
            "what did I say?" [⟨"user", "hello"⟩, ⟨"assistant", "hi"⟩]
            initialState).2).sentRequests.headD ⟨"", [], 0, 0⟩).messages) := by
  decide

/-- C4 (amended): a chat turn issues (on a cache miss) exactly one new
provider request, whose message list is the single user message combining
the generic chat instruction with the new input; the prior session history
is not part of the outgoing message list. -/
theorem chatTurn_sends_single_message (net : Net) (model prompt : String)
    (history : List Message) (s : ClientState)
    (hp : prompt ≠ "")
    (hmiss : cacheLookup s.cache (chatKey chat_instruction prompt model)
        = none) :
    ((chatTurn net model prompt history s).2).sentRequests
      = s.sentRequests ++
          [⟨model, [⟨"user", chatPrompt chat_instruction prompt⟩], 1,
            mkRat 5 10⟩] := by
  have hi : chat_instruction ≠ "" := by decide
  have h2 := generate_response_state net chat_instruction prompt model s hp hi
  have hstate : (chatTurn net model prompt history s).2
      = (generate_response net chat_instruction prompt model s).2 := by
    unfold chatTurn
    dsimp only
    split <;> rfl
  rw [hstate, h2]
  simp only [chatKey] at hmiss
  simp [callGroqApi, hmiss, sentRequest, chatKey, groqMessages]

/-- Witness for the amended C4 on a fresh session. -/
theorem chatTurn_sends_single_message_witness :
    ((chatTurn (fun _ => ApiBehavior.response ["hi"]) "m" "hello" []
        initialState).2).sentRequests
      = [⟨"m",
          [⟨"user", "Respond helpfully to the following user request:\n\n\"hello\""⟩],
          1, mkRat 5 10⟩] :=
  (chatTurn_sends_single_message (fun _ => ApiBehavior.response ["hi"]) "m"
      "hello" [] initialState (by decide) rfl).trans (by decide)

/-! ### Properties of the per-choice cleaning step (C2, C3) -/

/-- A list whose reported head does not satisfy `p` is untouched by
`dropWhile p` (the default is only consulted for the empty list, on which
`dropWhile` is the identity anyway). -/
theorem dropWhile_eq_self_of_headD (p : Char → Bool) (l : List Char)
    (d : Char) (h : p (l.headD d) = false) : l.dropWhile p = l := by
  cases l with
  | nil => rfl
  | cons a t =>
      simp only [List.headD_cons] at h
      simp [List.dropWhile_cons, h]

/-- Taking `headD` of a reversed list is `getLastD`. -/
theorem headD_reverse (l : List Char) (d : Char) :
    l.reverse.headD d = l.getLastD d := by
  rw [List.headD_eq_head?_getD, List.head?_reverse, List.getLastD_eq_getLast?]

/-- A list whose reported last element does not satisfy `p` is untouched by
`rdropWhile p`. -/
theorem rdropWhile_eq_self_of_getLastD (p : Char → Bool) (l : List Char)
    (d : Char) (h : p (l.getLastD d) = false) : List.rdropWhile p l = l := by
  show (l.reverse.dropWhile p).reverse = l
  rw [dropWhile_eq_self_of_headD p l.reverse d (by rwa [headD_reverse]),
    List.reverse_reverse]

/-- Right-stripping only removes a suffix. -/
theorem rdropWhile_append_eq (p : Char → Bool) (m : List Char) :
    ∃ t, List.rdropWhile p m ++ t = m := by
  obtain ⟨t, ht⟩ := List.dropWhile_suffix (l := m.reverse) p
  refine ⟨t.reverse, ?_⟩
  have h2 := congrArg List.reverse ht
  rw [List.reverse_append, List.reverse_reverse] at h2
  exact h2

/-- Left-stripped lists stay left-stripped after right-stripping. -/
theorem dropWhile_rdropWhile_fixed (p : Char → Bool) (m : List Char)
    (h : m.dropWhile p = m) :
    (List.rdropWhile p m).dropWhile p = List.rdropWhile p m := by
  rcases hm : List.rdropWhile p m with _ | ⟨a, t⟩
  · rfl
  · obtain ⟨u, hu⟩ := rdropWhile_append_eq p m
    rw [hm] at hu
    have ha : p a = false := by
      by_contra hpa
      simp only [Bool.not_eq_false] at hpa
      rw [← hu, List.cons_append, List.dropWhile_cons_of_pos hpa] at h
      have hle := (List.dropWhile_sublist (l := t ++ u) p).length_le
      have hlen := congrArg List.length h
      rw [List.length_cons] at hlen
      omega
    simp [List.dropWhile_cons, ha]

/-- The two-sided strip is idempotent. -/
theorem stripList_idem (p : Char → Bool) (l : List Char) :
    stripList p (stripList p l) = stripList p l := by
  unfold stripList
  rw [dropWhile_rdropWhile_fixed p _ (List.dropWhile_idempotent p l),
    List.rdropWhile_idempotent]

/-- Quote-stripping is idempotent. -/
theorem pyStripQuote_idem (s : String) :
    pyStripQuote (pyStripQuote s) = pyStripQuote s := by
  show (⟨stripList isQuote (stripList isQuote s.data)⟩ : String) = _
  rw [stripList_idem]
  rfl

/-- C2 counterexample: on the five-character input `"␣a␣"` (a quote, a
space, the letter a, a space, a quote) the cleaning step
`r.strip().strip('"')` of `rephrase` is not idempotent: one application
yields `␣a␣` and a second application strips the newly exposed whitespace,
yielding `a`. -/
theorem clean_not_idempotent_counterexample :
    ¬ (clean (clean "\" a \"") = clean "\" a \"") := by decide

/-- C2 (amended): the per-choice cleaning step `r.strip().strip('"')` is
idempotent exactly on those inputs whose cleaned form carries no leading or
trailing whitespace; when the final quote-stripping exposes new surrounding
whitespace, a second application strips further. -/
theorem clean_idempotent_of_stripped (x : String)
    (h : pyStrip (clean x) = clean x) :
    clean (clean x) = clean x := by
  show pyStripQuote (pyStrip (clean x)) = clean x
  rw [h]
  show pyStripQuote (pyStripQuote (pyStrip x)) = clean x
  rw [pyStripQuote_idem]
  rfl

/-- Witness for the amended C2 on a quote-wrapped input with no inner
whitespace at the ends. -/
theorem clean_idempotent_of_stripped_witness :
    pyStrip (clean "\"hi\"") = clean "\"hi\""
    ∧ clean (clean "\"hi\"") = clean "\"hi\"" :=
  ⟨by decide, clean_idempotent_of_stripped "\"hi\"" (by decide)⟩

/-- Prepended characters satisfying `p` are all dropped. -/
theorem dropWhile_replicate_append (p : Char → Bool) (c : Char)
    (hc : p c = true) (n : Nat) (l : List Char) :
    (List.replicate n c ++ l).dropWhile p = l.dropWhile p := by
  induction n with
  | zero => simp
  | succ k ih =>
      rw [List.replicate_succ, List.cons_append,
        List.dropWhile_cons_of_pos hc]
      exact ih

/-- Appended characters satisfying `p` are all dropped from the right. -/
theorem rdropWhile_append_replicate (p : Char → Bool) (c : Char)
    (hc : p c = true) (m : Nat) (l : List Char) :
    List.rdropWhile p (l ++ List.replicate m c) = List.rdropWhile p l := by
  induction m with
  | zero => simp
  | succ k ih =>
      rw [List.replicate_succ', ← List.append_assoc,
        List.rdropWhile_concat_pos _ _ _ hc]
      exact ih

/-- On an append, `headD` looks into the left part when it is nonempty. -/
theorem headD_append_left (l r : List Char) (d : Char) (h : l ≠ []) :
    (l ++ r).headD d = l.headD d := by
  cases l with
  | nil => exact absurd rfl h
  | cons a t => rfl

/-- On an append, `getLastD` looks into the right part when it is nonempty. -/
theorem getLastD_append_right (l r : List Char) (d : Char) (h : r ≠ []) :
    (l ++ r).getLastD d = r.getLastD d := by
  rw [← headD_reverse, List.reverse_append,
    headD_append_left _ _ _ (by simpa using h), headD_reverse]

/-- C3 counterexample: the cleaning applied to choice text strips more than
one layer of wrapping quotes (`""a""` becomes `a`, not `"a"`) and does strip
a lone unmatched leading quote (`"abc` becomes `abc`, not `"abc`). -/
theorem clean_one_quote_layer_counterexample :
    ¬ (clean "\"\"a\"\"" = "\"a\"") ∧ ¬ (clean "\"abc" = "\"abc") := by
  decide

/-- C3 (amended): the result derived from a choice text is trimmed of
surrounding whitespace and then of ALL leading and trailing double-quote
characters — every layer at once, matched or not: for any core text `s`
that neither starts nor ends with whitespace or a double quote, wrapping it
in any numbers `n` and `m` of leading and trailing quote characters cleans
back to `s` itself. -/
theorem clean_strips_all_quote_layers (s : List Char) (n m : Nat)
    (h1 : isPySpace (s.headD '"') = false)
    (h2 : isQuote (s.headD '"') = false)
    (h3 : isPySpace (s.getLastD '"') = false)
    (h4 : isQuote (s.getLastD '"') = false) :
    clean ⟨List.replicate n '"' ++ s ++ List.replicate m '"'⟩ = ⟨s⟩ := by
  have hq : isQuote '"' = true := rfl
  have hs : s ≠ [] := by
    intro h
    rw [h] at h2
    exact absurd h2 (by simp [isQuote])
  have hstrip : pyStrip ⟨List.replicate n '"' ++ s ++ List.replicate m '"'⟩
      = ⟨List.replicate n '"' ++ s ++ List.replicate m '"'⟩ := by
    show (⟨stripList isPySpace _⟩ : String) = _
    rw [stripList, dropWhile_eq_self_of_headD isPySpace _ '"' ?hh,
      rdropWhile_eq_self_of_getLastD isPySpace _ '"' ?hl]
    case hh =>
      cases n with
      | zero =>
          rw [List.replicate_zero, List.nil_append,
            headD_append_left _ _ _ hs]
          exact h1
      | succ k =>
          rw [List.replicate_succ, List.cons_append, List.cons_append,
            List.headD_cons]
          rfl
    case hl =>
      cases m with
      | zero =>
          rw [List.replicate_zero, List.append_nil,
            getLastD_append_right _ _ _ hs]
          exact h3
      | succ k =>
          rw [getLastD_append_right _ _ _ (by simp),
            List.replicate_succ', getLastD_append_right _ _ _ (by simp)]
          rfl
  show pyStripQuote (pyStrip ⟨List.replicate n '"' ++ s ++ List.replicate m '"'⟩) = ⟨s⟩
  rw [hstrip]
  show (⟨stripList isQuote (List.replicate n '"' ++ s ++ List.replicate m '"')⟩ : String) = ⟨s⟩
  rw [stripList, List.append_assoc,
    dropWhile_replicate_append isQuote '"' hq n (s ++ List.replicate m '"'),
    dropWhile_eq_self_of_headD isQuote _ '"'
      (by rw [headD_append_left _ _ _ hs]; exact h2),
    rdropWhile_append_replicate isQuote '"' hq m s,
    rdropWhile_eq_self_of_getLastD isQuote _ '"' h4]

/-- Witness for the amended C3: two quote layers on each side of `ab` are
both removed at once. -/
theorem clean_strips_all_quote_layers_witness :
    clean "\"\"ab\"\"" = "ab" := by
  have h := clean_strips_all_quote_layers ("ab".data) 2 2 (by decide)
    (by decide) (by decide) (by decide)
  have e1 : (⟨List.replicate 2 '"' ++ "ab".data ++ List.replicate 2 '"'⟩ :
      String) = "\"\"ab\"\"" := by decide
  have e2 : (⟨"ab".data⟩ : String) = "ab" := by decide
  rw [e1, e2] at h
  exact h

/-! ### Tag removal correctness of the sanitizer (C9) -/

theorem openTags_heads : ∀ t ∈ openTags, t.head? = some '<' := by decide

theorem closeTags_heads : ∀ t ∈ closeTags, t.head? = some '<' := by decide

/-- No tag matches at a position whose character does not lowercase to the
tag-opening character. -/
theorem matchTagAt_none_of_head (tags : List (List Char)) (c : Char)
    (r : List Char) (hc : c.toLower ≠ '<')
    (ht : ∀ t ∈ tags, t.head? = some '<') :
    matchTagAt tags (c :: r) = none := by
  induction tags with
  | nil => rfl
  | cons t ts ih =>
      have hcond : ¬ (((c :: r).take t.length).map Char.toLower = t) := by
        intro he
        have hh := ht t (List.mem_cons_self t ts)
        cases t with
        | nil => simp at hh
        | cons a tt =>
            rw [List.head?_cons] at hh
            injection hh with hh2
            rw [List.length_cons, List.take_succ_cons, List.map_cons] at he
            injection he with he1 he2
            exact hc (he1.trans hh2)
      rw [matchTagAt, if_neg hcond]
      exact ih fun t2 h2 => ht t2 (List.mem_cons_of_mem _ h2)

theorem removeThink_nil : removeThink [] = [] := by
  rw [removeThink]

theorem removeThink_cons_none (c : Char) (rest : List Char)
    (h : matchTagAt openTags (c :: rest) = none) :
    removeThink (c :: rest) = c :: removeThink rest := by
  rw [removeThink, h]

theorem removeThink_cons_some (c : Char) (rest : List Char) (k : Nat)
    (after : List Char)
    (hk : matchTagAt openTags (c :: rest) = some k)
    (hf : findClose ((c :: rest).drop k) = some after) :
    removeThink (c :: rest) = removeThink after := by
  rw [removeThink, hk]
  split
  · next a2 heq =>
      injection heq with h2
      subst h2
      split
      · next af heq2 =>
          rw [heq2] at hf
          injection hf with h3
          rw [h3]
      · next heq2 =>
          rw [heq2] at hf
          exact absurd hf (by simp)
  · next heq => simp at heq

/-- The scanner copies a tag-free region verbatim. -/
theorem removeThink_append_clean (l r : List Char)
    (hl : ∀ c ∈ l, c.toLower ≠ '<') :
    removeThink (l ++ r) = l ++ removeThink r := by
  induction l with
  | nil => rfl
  | cons c t ih =>
      rw [List.cons_append,
        removeThink_cons_none c (t ++ r)
          (matchTagAt_none_of_head openTags c (t ++ r)
            (hl c (List.mem_cons_self c t)) openTags_heads),
        ih fun x hx => hl x (List.mem_cons_of_mem c hx), List.cons_append]

/-- A tag-free text is left unchanged. -/
theorem removeThink_clean (l : List Char)
    (hl : ∀ c ∈ l, c.toLower ≠ '<') : removeThink l = l := by
  have h := removeThink_append_clean l [] hl
  rw [List.append_nil, removeThink_nil, List.append_nil] at h
  exact h

/-- The close-tag scan skips a tag-free region. -/
theorem findClose_append_clean (l r : List Char)
    (hl : ∀ c ∈ l, c.toLower ≠ '<') :
    findClose (l ++ r) = findClose r := by
  induction l with
  | nil => rfl
  | cons c t ih =>
      rw [List.cons_append, findClose,
        matchTagAt_none_of_head closeTags c (t ++ r)
          (hl c (List.mem_cons_self c t)) closeTags_heads]
      exact ih fun x hx => hl x (List.mem_cons_of_mem c hx)

/-- A (case-insensitive) opening tag is recognised at its own position,
whichever of the two synonyms it is. -/
theorem matchTagAt_open_at_tag (ot r : List Char)
    (hot : ot.map Char.toLower = openThink
      ∨ ot.map Char.toLower = openThinking) :
    matchTagAt openTags (ot ++ r) = some ot.length := by
  rcases hot with hot | hot
  · have hlen : ot.length = openThink.length := by
      have h := congrArg List.length hot
      rwa [List.length_map] at h
    have hneg : ¬ (((ot ++ r).take openThinking.length).map Char.toLower
        = openThinking) := by
      intro he
      have h7 := congrArg (List.take 7) he
      rw [← List.map_take, List.take_take] at h7
      have hmin : min 7 openThinking.length = ot.length := by
        rw [hlen]; decide
      rw [hmin, List.take_left, hot] at h7
      exact absurd h7 (by decide)
    have hpos : ((ot ++ r).take openThink.length).map Char.toLower
        = openThink := by
      rw [← hlen, List.take_left, hot]
    rw [show openTags = [openThinking, openThink] from rfl, matchTagAt,
      if_neg hneg, matchTagAt, if_pos hpos, hlen]
  · have hlen : ot.length = openThinking.length := by
      have h := congrArg List.length hot
      rwa [List.length_map] at h
    have hpos : ((ot ++ r).take openThinking.length).map Char.toLower
        = openThinking := by
      rw [← hlen, List.take_left, hot]
    rw [show openTags = [openThinking, openThink] from rfl, matchTagAt,
      if_pos hpos, hlen]

/-- A (case-insensitive) closing tag is recognised at its own position,
whichever of the two synonyms it is. -/
theorem matchTagAt_close_at_tag (ct r : List Char)
    (hct : ct.map Char.toLower = closeThink
      ∨ ct.map Char.toLower = closeThinking) :
    matchTagAt closeTags (ct ++ r) = some ct.length := by
  rcases hct with hct | hct
  · have hlen : ct.length = closeThink.length := by
      have h := congrArg List.length hct
      rwa [List.length_map] at h
    have hneg : ¬ (((ct ++ r).take closeThinking.length).map Char.toLower
        = closeThinking) := by
      intro he
      have h8 := congrArg (List.take 8) he
      rw [← List.map_take, List.take_take] at h8
      have hmin : min 8 closeThinking.length = ct.length := by
        rw [hlen]; decide
      rw [hmin, List.take_left, hct] at h8
      exact absurd h8 (by decide)
    have hpos : ((ct ++ r).take closeThink.length).map Char.toLower
        = closeThink := by
      rw [← hlen, List.take_left, hct]
    rw [show closeTags = [closeThinking, closeThink] from rfl, matchTagAt,
      if_neg hneg, matchTagAt, if_pos hpos, hlen]
  · have hlen : ct.length = closeThinking.length := by
      have h := congrArg List.length hct
      rwa [List.length_map] at h
    have hpos : ((ct ++ r).take closeThinking.length).map Char.toLower
        = closeThinking := by
      rw [← hlen, List.take_left, hct]
    rw [show closeTags = [closeThinking, closeThink] from rfl, matchTagAt,
      if_pos hpos, hlen]

/-- The close-tag scan at a closing tag returns exactly the remainder after it. -/
theorem findClose_at_close (b : Char) (u r : List Char)
    (hct : (b :: u).map Char.toLower = closeThink
      ∨ (b :: u).map Char.toLower = closeThinking) :
    findClose ((b :: u) ++ r) = some r := by
  have hk := matchTagAt_close_at_tag (b :: u) r hct
  rw [List.cons_append, findClose, ← List.cons_append, hk]
  show some ((u ++ r).drop ((b :: u).length - 1)) = some r
  rw [List.length_cons, Nat.add_sub_cancel, List.drop_left]

/-- C9: the sanitizer removes a reasoning-markup span — open tag, contents
(newlines included), close tag, each tag any mix of case and either synonym
accepted — and returns the surrounding text, whitespace-trimmed, with the
text outside the span unchanged; the surrounding text and the span body are
assumed free of the tag-opening character. -/
theorem sanitize_removes_think_span (pre body suf ot ct : List Char)
    (hot : ot.map Char.toLower = openThink
      ∨ ot.map Char.toLower = openThinking)
    (hct : ct.map Char.toLower = closeThink
      ∨ ct.map Char.toLower = closeThinking)
    (hpre : ∀ c ∈ pre, c.toLower ≠ '<')
    (hbody : ∀ c ∈ body, c.toLower ≠ '<')
    (hsuf : ∀ c ∈ suf, c.toLower ≠ '<') :
    sanitize ⟨pre ++ ot ++ body ++ ct ++ suf⟩ = pyStrip ⟨pre ++ suf⟩ := by
  obtain ⟨a, t, rfl⟩ : ∃ a t, ot = a :: t := by
    cases ot with
    | nil =>
        exfalso
        rcases hot with h | h <;> exact absurd h (by decide)
    | cons a t => exact ⟨a, t, rfl⟩
  obtain ⟨b, u, rfl⟩ : ∃ b u, ct = b :: u := by
    cases ct with
    | nil =>
        exfalso
        rcases hct with h | h <;> exact absurd h (by decide)
    | cons b u => exact ⟨b, u, rfl⟩
  have hrem : removeThink (pre ++ (a :: t) ++ body ++ (b :: u) ++ suf)
      = pre ++ suf := by
    rw [List.append_assoc, List.append_assoc, List.append_assoc,
      removeThink_append_clean pre _ hpre]
    congr 1
    rw [List.cons_append]
    have hk : matchTagAt openTags
        (a :: (t ++ (body ++ ((b :: u) ++ suf)))) = some (a :: t).length := by
      rw [← List.cons_append]
      exact matchTagAt_open_at_tag (a :: t) _ hot
    have hf : findClose
        ((a :: (t ++ (body ++ ((b :: u) ++ suf)))).drop (a :: t).length)
        = some suf := by
      rw [← List.cons_append, List.drop_left,
        findClose_append_clean body _ hbody]
      exact findClose_at_close b u suf hct
    rw [removeThink_cons_some _ _ _ _ hk hf]
    exact removeThink_clean suf hsuf
  show pyStrip ⟨removeThink (pre ++ (a :: t) ++ body ++ (b :: u) ++ suf)⟩
      = pyStrip ⟨pre ++ suf⟩
  rw [hrem]

/-- Witness for C9: the raw output of Scenario A sanitizes to the labeled
sentence with the reasoning span removed. -/
theorem sanitize_removes_think_span_witness :
    sanitize "<think>reasoning...</think>Corrected Sentence: He goes to school."
      = "Corrected Sentence: He goes to school." := by
  have h := sanitize_removes_think_span [] ("reasoning...".data)
    ("Corrected Sentence: He goes to school.".data) ("<think>".data)
    ("</think>".data) (Or.inl (by decide)) (Or.inl (by decide))
    (by decide) (by decide) (by decide)
  have e1 : (⟨([] : List Char) ++ "<think>".data ++ "reasoning...".data ++
      "</think>".data ++ "Corrected Sentence: He goes to school.".data⟩ :
      String)
      = "<think>reasoning...</think>Corrected Sentence: He goes to school." := by
    decide
  have e2 : pyStrip ⟨([] : List Char) ++
      "Corrected Sentence: He goes to school.".data⟩
      = "Corrected Sentence: He goes to school." := by decide
  rw [e1, e2] at h
  exact h

end WritingTools
